import Mathlib

/-!
Verification development for the Color-Master color engine.

This file gives a shallow embedding, in Lean 4, of the color-space
conversion and calibration engine of the Color-Master repository:

* the colord hex parser / serializer and RGB↔HSV conversions used by the
  application (the library's arithmetic on JavaScript numbers is modelled
  over `ℚ`; where the results of IEEE-754 binary64 rounding are visible in
  integer outputs — the white-balance scaling in `getCorrectedColor` — the
  double-precision rounding is modelled exactly, see `fl`);
* `getCorrectedColor`, white-balance correction from `ColorCanvas.tsx`;
* the pointer/display-space pixel-sampling handler `handlePointer` of
  `ColorCanvas.tsx`, together with the capture-workflow state operations
  `startCamera` (successful acquisition path), `capturePhoto` and
  `handleFileUpload`;
* the `ColorWheel` picker state machine: prop synchronisation
  (`syncFromProps`), saturation/brightness and hue drag handlers, and the
  hex text-field handler `handleHexInputChange`.

Theorems at the end of the file settle the stated properties of these
operations.
-/

namespace ColorMaster

/-! ### JavaScript numeric primitives

`jsRound` is ECMAScript `Math.round`: the closest integer, ties toward
positive infinity.  `ratTrunc` truncates toward zero (the integer part used
by the `%` remainder operator).  `clamp01 q = Math.max(0, Math.min(1, q))`.
-/

def jsRound (q : ℚ) : ℤ := ⌊q + 1/2⌋

def clamp01 (q : ℚ) : ℚ := max 0 (min 1 q)

def ratTrunc (q : ℚ) : ℤ := if 0 ≤ q then ⌊q⌋ else ⌈q⌉

def jsMod (a b : ℚ) : ℚ := a - b * ratTrunc (a / b)

/-! ### Exact model of IEEE-754 binary64 rounding

JavaScript numbers are binary64 floating-point values, and `/` and `*` are
correctly rounded (round to nearest, ties to even).  Every finite double is
a rational number, so a double computation can be mirrored exactly over `ℚ`
by re-rounding after each operation.  `fl q` is the double nearest to `q`,
for `q = 0` or `1 ≤ q < 2 ^ 53` — the only range the embedded code uses
(white-balance scales lie in `[1, 255]` and scaled channels in
`[0, 255 · 256)`).  `roundHalfEven` rounds a rational to the nearest
integer, ties to even.
-/

def roundHalfEven (q : ℚ) : ℤ :=
  let n := ⌊q⌋
  let f := q - n
  if f < 1/2 then n
  else if 1/2 < f then n + 1
  else if n % 2 = 0 then n else n + 1

def fl (q : ℚ) : ℚ :=
  if q ≤ 0 then 0
  else
    let e : ℕ := Nat.log2 ⌊q⌋.toNat
    roundHalfEven (q * 2 ^ (52 - e)) / 2 ^ (52 - e)

/-! ### RGB and HSV data model -/

structure RGB where
  r : ℕ
  g : ℕ
  b : ℕ
deriving DecidableEq, Repr

def RGB.valid (c : RGB) : Prop := c.r ≤ 255 ∧ c.g ≤ 255 ∧ c.b ≤ 255

instance (c : RGB) : Decidable c.valid := by unfold RGB.valid; infer_instance

structure HSV where
  h : ℚ
  s : ℚ
  v : ℚ
deriving DecidableEq, Repr

/-! ### Hex digits, the colord hex serializer and parser

colord serializes a byte as two lowercase hex digits (`format` in
`colord/helpers`), and parses hex strings with the anchored pattern
`#?([0-9a-f]\x7b3,8\x7d)` (case-insensitive), accepting bodies of length
3, 4, 6 or 8 and rejecting 5 and 7.  Alpha digits are parsed by colord but
every color handled by the embedded code paths is fully opaque, so the
model drops the alpha component.
-/

def isHexDigit (c : Char) : Bool :=
  ('0' ≤ c ∧ c ≤ '9') ∨ ('a' ≤ c ∧ c ≤ 'f') ∨ ('A' ≤ c ∧ c ≤ 'F')

def hexVal (c : Char) : ℕ :=
  if '0' ≤ c ∧ c ≤ '9' then c.toNat - '0'.toNat
  else if 'a' ≤ c ∧ c ≤ 'f' then c.toNat - 'a'.toNat + 10
  else if 'A' ≤ c ∧ c ≤ 'F' then c.toNat - 'A'.toNat + 10
  else 0

def hexChar (n : ℕ) : Char :=
  match n with
  | 0 => '0' | 1 => '1' | 2 => '2' | 3 => '3' | 4 => '4'
  | 5 => '5' | 6 => '6' | 7 => '7' | 8 => '8' | 9 => '9'
  | 10 => 'a' | 11 => 'b' | 12 => 'c' | 13 => 'd' | 14 => 'e'
  | _ => 'f'

def byteToHex (n : ℕ) : List Char := [hexChar (n / 16 % 16), hexChar (n % 16)]

def toHexString (c : RGB) : String :=
  ⟨'#' :: (byteToHex c.r ++ byteToHex c.g ++ byteToHex c.b)⟩

/-- The digit characters the colord hex matcher examines: the input with a
single optional leading `#` removed. -/
def hexBody (s : String) : List Char :=
  match s.data with
  | '#' :: rest => rest
  | cs => cs

def parseHexColor (s : String) : Option RGB :=
  let body : List Char := hexBody s
  if body.all isHexDigit then
    match body with
    | [r1, g1, b1] =>
        some ⟨17 * hexVal r1, 17 * hexVal g1, 17 * hexVal b1⟩
    | [r1, g1, b1, _] =>
        some ⟨17 * hexVal r1, 17 * hexVal g1, 17 * hexVal b1⟩
    | [r1, r2, g1, g2, b1, b2] =>
        some ⟨16 * hexVal r1 + hexVal r2, 16 * hexVal g1 + hexVal g2,
              16 * hexVal b1 + hexVal b2⟩
    | [r1, r2, g1, g2, b1, b2, _, _] =>
        some ⟨16 * hexVal r1 + hexVal r2, 16 * hexVal g1 + hexVal g2,
              16 * hexVal b1 + hexVal b2⟩
    | _ => none
  else none

/-- The RGB value colord holds after parsing an input string: the parsed
color, or opaque black when parsing failed (`colord` falls back to
`r: 0, g: 0, b: 0, a: 1` on invalid input). -/
def colordRgbOf (s : String) : RGB := (parseHexColor s).getD ⟨0, 0, 0⟩

/-- Validity check `colord(s).isValid()` for a string that begins with `#`:
only the hex parser of colord can match such a string (its rgb and hsl
string matchers are anchored on their own leading patterns). -/
def colordValid (s : String) : Bool := (parseHexColor s).isSome

/-- `colord(color).toHex().replace(..., ...).toUpperCase()` as used by the
picker when it refreshes the hex text field: the six hex digits without
the leading mark, uppercased. -/
def normalizedHexUpper (s : String) : String :=
  let c := colordRgbOf s
  ⟨(byteToHex c.r ++ byteToHex c.g ++ byteToHex c.b).map Char.toUpper⟩

/-! ### colord RGB↔HSV conversions

`rgbaToHsva` and `hsvaToRgba` are colord's conversion kernels; `toHsv`
rounds each component to the nearest integer (`roundHsv`), and object
inputs are clamped on parse (`clampHsva`, with `clampHue` reducing the hue
modulo 360 the way JavaScript `%` does).  Coordinate arithmetic here is
modelled over exact rationals.
-/

def rgbaToHsva (c : RGB) : HSV :=
  let r : ℚ := c.r
  let g : ℚ := c.g
  let b : ℚ := c.b
  let mx := max r (max g b)
  let delta := mx - min r (min g b)
  let hh : ℚ :=
    if delta = 0 then 0
    else if mx = r then (g - b) / delta
    else if mx = g then 2 + (b - r) / delta
    else 4 + (r - g) / delta
  { h := 60 * (if hh < 0 then hh + 6 else hh)
    s := if mx = 0 then 0 else delta / mx * 100
    v := mx / 255 * 100 }

def roundHsv (c : HSV) : HSV :=
  { h := jsRound c.h, s := jsRound c.s, v := jsRound c.v }

/-- `colord(rgb).toHsv()` (hue, saturation and value are rounded to
integers by colord's `roundHsva`). -/
def colordToHsv (c : RGB) : HSV := roundHsv (rgbaToHsva c)

def clampHue (h : ℚ) : ℚ :=
  let m := jsMod h 360
  if m < 0 then m + 360 else m

def clampHsva (c : HSV) : HSV :=
  { h := clampHue c.h, s := max 0 (min 100 c.s), v := max 0 (min 100 c.v) }

def hsvaToRgba (c : HSV) : ℚ × ℚ × ℚ :=
  let h := c.h / 360 * 6
  let s := c.s / 100
  let v := c.v / 100
  let hh := ⌊h⌋
  let b := v * (1 - s)
  let cc := v * (1 - (h - hh) * s)
  let d := v * (1 - (1 - h + hh) * s)
  let sel : ℚ × ℚ × ℚ :=
    match (hh % 6).toNat with
    | 0 => (v, d, b)
    | 1 => (cc, v, b)
    | 2 => (b, v, d)
    | 3 => (b, cc, v)
    | 4 => (d, b, v)
    | _ => (v, b, cc)
  (sel.1 * 255, sel.2.1 * 255, sel.2.2 * 255)

/-- `colord(hsvObject).toHex()`: the object parser clamps the components
(`clampHsva`), converts to RGB, and the serializer rounds each channel. -/
def hsvToHexString (c : HSV) : String :=
  let rgb := hsvaToRgba (clampHsva c)
  toHexString ⟨(jsRound rgb.1).toNat, (jsRound rgb.2.1).toNat, (jsRound rgb.2.2).toNat⟩

/-! ### White-balance correction (`getCorrectedColor`, ColorCanvas.tsx)

The source computes, per channel, `scale = 255 / Math.max(ref, 1)` and
`Math.min(255, Math.round(sampled * scale))` on JavaScript doubles.  The
two floating-point operations (the division producing the scale and the
multiplication by the sampled channel) are modelled exactly with `fl`.
-/

def getCorrectedColor (whiteReference : Option RGB) (hex : String) : String :=
  match whiteReference with
  | none => hex
  | some w =>
      let rgb := colordRgbOf hex
      let scaleR := fl (255 / (max w.r 1 : ℕ))
      let scaleG := fl (255 / (max w.g 1 : ℕ))
      let scaleB := fl (255 / (max w.b 1 : ℕ))
      toHexString
        ⟨min 255 (jsRound (fl (rgb.r * scaleR))).toNat,
         min 255 (jsRound (fl (rgb.g * scaleG))).toNat,
         min 255 (jsRound (fl (rgb.b * scaleB))).toNat⟩

/-- Per-channel white-balance formula, as `getCorrectedColor` evaluates it
on a reference channel `m` and a sampled channel `x` (binary64
arithmetic). -/
def correctChannel (m x : ℕ) : ℕ :=
  min 255 (jsRound (fl (x * fl (255 / (max m 1 : ℕ))))).toNat

/-- Per-channel white-balance formula as the specification words it, with
the arithmetic read over exact rationals: `scale = 255 / max(m, 1)` and
`round(min(255, x · scale))`. -/
def specCorrectChannel (m x : ℕ) : ℕ :=
  (jsRound (min 255 (x * (255 / (max m 1 : ℕ) : ℚ)))).toNat

/-! ### The ColorWheel picker state machine (src/unnamed/part_000)

State: the internal HSV snapshot, the active drag target (`'sb' | 'hue' |
null`), the hex text-field contents and its focus flag.  `emitted` records
the hex strings passed to `onChange`, most recent first.  Pointer events
carry client coordinates; the source reads `touches[0]` for touch events,
so a pointer input is either a mouse position or a primary-touch
position.
-/

inductive DragTarget where
  | sb
  | hue
deriving DecidableEq, Repr

inductive PointerInput where
  | mouse (clientX clientY : ℚ)
  | touch (clientX clientY : ℚ)
deriving DecidableEq, Repr

/-- Bounding client rectangle of a DOM element, as returned by
`getBoundingClientRect`. -/
structure Rect where
  left : ℚ
  top : ℚ
  width : ℚ
  height : ℚ
deriving DecidableEq, Repr

structure WheelState where
  hsv : HSV
  dragTarget : Option DragTarget
  hexInput : String
  isHexFocused : Bool
  emitted : List String
deriving DecidableEq, Repr

/-- Shared tail of every picker mutation: store the new HSV snapshot and
emit `colord(newHsv).toHex()` through `onChange`. -/
def handleColorChange (newHsv : HSV) (st : WheelState) : WheelState :=
  { st with hsv := newHsv, emitted := hsvToHexString newHsv :: st.emitted }

/-- The prop-synchronisation effect (lines 22–32 of the source): when no
drag is active, re-derive the HSV snapshot from the externally supplied
color, and refresh the hex text field unless it is focused; when a drag is
active, do nothing. -/
def syncFromProps (color : String) (st : WheelState) : WheelState :=
  if st.dragTarget = none then
    { st with
      hsv := colordToHsv (colordRgbOf color)
      hexInput := if ¬st.isHexFocused then normalizedHexUpper color else st.hexInput }
  else st

/-- Saturation/brightness plane drag handler `handleSBMove`: both axes are
clamped to `[0, 1]` relative to the bounding rectangle; x maps to
saturation and inverted y to value, each rounded onto `[0, 100]`. -/
def handleSBMove (rect : Rect) (e : PointerInput) (st : WheelState) : WheelState :=
  let clientX := match e with
    | .touch x _ => x
    | .mouse x _ => x
  let clientY := match e with
    | .touch _ y => y
    | .mouse _ y => y
  let x := clamp01 ((clientX - rect.left) / rect.width)
  let y := clamp01 ((clientY - rect.top) / rect.height)
  let s : ℚ := jsRound (x * 100)
  let v : ℚ := jsRound ((1 - y) * 100)
  handleColorChange { st.hsv with s := s, v := v } st

/-- Hue axis drag handler `handleHueMove`: the source always maps along the
vertical extent of the bounding rectangle, and for touch events it reads
`touches[0].clientX` (the horizontal client coordinate) into the variable
it then treats as the vertical offset. -/
def handleHueMove (rect : Rect) (e : PointerInput) (st : WheelState) : WheelState :=
  let clientY := match e with
    | .touch x _ => x
    | .mouse _ y => y
  let y := clamp01 ((clientY - rect.top) / rect.height)
  let h : ℚ := jsRound (y * 360)
  handleColorChange { st.hsv with h := h } st

/-- Pointer-down on the saturation/brightness surface: set the drag target
and process the initial position. -/
def pointerDownSB (rect : Rect) (e : PointerInput) (st : WheelState) : WheelState :=
  handleSBMove rect e { st with dragTarget := some .sb }

/-- Pointer-down on the hue surface. -/
def pointerDownHue (rect : Rect) (e : PointerInput) (st : WheelState) : WheelState :=
  handleHueMove rect e { st with dragTarget := some .hue }

/-- Global pointer-up / touch-end handler: clear the drag target. -/
def handleUp (st : WheelState) : WheelState := { st with dragTarget := none }

/-- Normalisation applied to the hex text field's contents before parsing:
prepend `#` when the input does not already start with one. -/
def hexClean (val : String) : String :=
  match val.data with
  | '#' :: _ => val
  | _ => "#" ++ val

/-- Hex text-field change handler (lines 117–128): record the keystroke,
normalise with `hexClean`, and only when colord accepts the normalised
string update the HSV snapshot and emit the parsed color. -/
def handleHexInputChange (val : String) (st : WheelState) : WheelState :=
  let st1 := { st with hexInput := val }
  let clean := hexClean val
  if colordValid clean then
    let c := colordRgbOf clean
    { st1 with hsv := colordToHsv c, emitted := toHexString c :: st1.emitted }
  else st1

/-! ### The ColorCanvas capture / calibration workflow (ColorCanvas.tsx)

The sampler canvas always holds the decoded active image at its native
pixel dimensions (the draw effects of lines 233–262 copy `imageSrc` onto
the canvas at `img.width × img.height`), so a raster surface is its native
size plus a pixel function.  `selected` records the hex strings passed to
`onColorSelected`, most recent first.
-/

structure Surface where
  width : ℕ
  height : ℕ
  pixel : ℕ → ℕ → RGB

inductive ViewMode where
  | idle
  | camera
  | image_preview
  | sampler
deriving DecidableEq, Repr

inductive CalibrationStep where
  | none
  | pick_white
deriving DecidableEq, Repr

structure Loupe where
  x : ℚ
  y : ℚ
  color : String
  rawColor : Option String
deriving DecidableEq, Repr

structure CanvasState where
  viewMode : ViewMode
  streamActive : Bool
  imageSrc : Option Surface
  sampledColor : Option String
  isCalibrating : Bool
  calibrationStep : CalibrationStep
  whiteReference : Option RGB
  loupe : Option Loupe
  selected : List String

inductive PointerEventType where
  | pointerdown
  | pointermove
  | pointerup
  | pointerleave
deriving DecidableEq, Repr

structure PointerEvent where
  type : PointerEventType
  clientX : ℚ
  clientY : ℚ
deriving DecidableEq, Repr

/-- Single-pixel read `ctx.getImageData(x, y, 1, 1).data` from a raster
surface, per the HTML canvas specification: the coordinate arguments are
converted to integers truncating toward zero, a pixel inside the bitmap
is returned, and a pixel outside the bitmap is returned as transparent
black — the call throws only for zero-sized rectangles or tainted
canvases, neither of which occurs here (the rectangle is 1×1 and the
canvas holds the app's own capture or upload).  The handler uses only the
r, g and b components, so an out-of-bitmap read yields the color
(0,0,0). -/
def getImageData (surf : Surface) (x y : ℚ) : RGB :=
  let ix := ratTrunc x
  let iy := ratTrunc y
  if 0 ≤ ix ∧ ix < (surf.width : ℤ) ∧ 0 ≤ iy ∧ iy < (surf.height : ℤ) then
    surf.pixel ix.toNat iy.toNat
  else ⟨0, 0, 0⟩

/-- The unified pointer handler of the sampler overlay (lines 265–319).
`rect` is the canvas's current bounding client rectangle; when no canvas
is mounted (`imageSrc` empty) the handler returns immediately.  The
source wraps the pixel read in a try/catch, but `getImageData` does not
throw for out-of-bitmap coordinates (it returns transparent black), so
the catch path is dead in the pointer flow and the move branch always
stores a loupe. -/
def handlePointer (rect : Rect) (e : PointerEvent) (st : CanvasState) : CanvasState :=
  match st.imageSrc with
  | Option.none => st
  | some canvas =>
    match e.type with
    | .pointerup =>
        let st' :=
          match st.loupe with
          | some l =>
              match st.calibrationStep with
              | .pick_white =>
                  let source := match l.rawColor with
                    | some s => if s = "" then l.color else s
                    | Option.none => l.color
                  { st with
                    whiteReference := some (colordRgbOf source)
                    calibrationStep := .none }
              | .none =>
                  { st with
                    sampledColor := some l.color
                    selected := l.color :: st.selected }
          | Option.none => st
        { st' with loupe := Option.none }
    | .pointerleave => { st with loupe := Option.none }
    | _ =>
        let scaleX := (canvas.width : ℚ) / rect.width
        let scaleY := (canvas.height : ℚ) / rect.height
        let x := (e.clientX - rect.left) * scaleX
        let y := (e.clientY - rect.top) * scaleY
        let p := getImageData canvas x y
        let rawHex := toHexString p
        let finalHex :=
          if st.calibrationStep = .pick_white then rawHex
          else getCorrectedColor st.whiteReference rawHex
        { st with loupe := some ⟨e.clientX, e.clientY, finalHex, some rawHex⟩ }

/-- Successful completion of the asynchronous `startCamera` (lines 55–89):
the acquired stream is stored, the view switches to the full-screen
camera, and any previously sampled color is cleared.  The failure path
surfaces an alert and changes none of this state. -/
def startCamera (st : CanvasState) : CanvasState :=
  { st with streamActive := true, viewMode := .camera, sampledColor := Option.none }

/-- Capturing a still (`capturePhoto`, lines 99–128): the frame becomes the
active image, the stream is released, and the sampler opens — in the
pick-white step when calibration is enabled. -/
def capturePhoto (frame : Surface) (st : CanvasState) : CanvasState :=
  { st with
    imageSrc := some frame
    streamActive := false
    calibrationStep := if st.isCalibrating then .pick_white else .none
    viewMode := .sampler }

/-- A completed file upload (`handleFileUpload`, lines 174–189): the decoded
image becomes the active image and calibration state is reset. -/
def handleFileUpload (img : Surface) (st : CanvasState) : CanvasState :=
  { st with
    imageSrc := some img
    sampledColor := Option.none
    viewMode := .sampler
    whiteReference := Option.none
    isCalibrating := false
    calibrationStep := .none }

/-! ### Evaluation and bound lemmas for the binary64 model -/

lemma roundHalfEven_unfold (q : ℚ) :
    roundHalfEven q =
      if q - ⌊q⌋ < 1/2 then ⌊q⌋
      else if 1/2 < q - ⌊q⌋ then ⌊q⌋ + 1
      else if ⌊q⌋ % 2 = 0 then ⌊q⌋ else ⌊q⌋ + 1 := rfl

lemma roundHalfEven_of_lt (q : ℚ) (n : ℤ) (hfl : ⌊q⌋ = n) (hlt : q - n < 1/2) :
    roundHalfEven q = n := by
  rw [roundHalfEven_unfold, hfl, if_pos hlt]

lemma roundHalfEven_of_gt (q : ℚ) (n : ℤ) (hfl : ⌊q⌋ = n) (hgt : 1/2 < q - n) :
    roundHalfEven q = n + 1 := by
  rw [roundHalfEven_unfold, hfl, if_neg (by linarith), if_pos hgt]

lemma fl_unfold (q : ℚ) :
    fl q =
      if q ≤ 0 then 0
      else (roundHalfEven (q * 2 ^ (52 - Nat.log2 ⌊q⌋.toNat)) : ℚ) /
            2 ^ (52 - Nat.log2 ⌊q⌋.toNat) := rfl

lemma fl_eval (q : ℚ) (e : ℕ) (n : ℤ)
    (hq : ¬q ≤ 0)
    (he : Nat.log2 ⌊q⌋.toNat = e)
    (hn : roundHalfEven (q * 2 ^ (52 - e)) = n) :
    fl q = (n : ℚ) / 2 ^ (52 - e) := by
  rw [fl_unfold, if_neg hq, he, hn]

lemma correctChannel_unfold (m x : ℕ) :
    correctChannel m x =
      min 255 (jsRound (fl (x * fl (255 / (max m 1 : ℕ))))).toNat := rfl

/-- Evaluation of the white-balance scale at reference channel 200: the
binary64 quotient `255 / 200` is `5742089524897382 · 2 ^ (-52)`, slightly
below `1.275`. -/
lemma fl_scale_200 : fl ((255 : ℚ) / ((max 200 1 : ℕ) : ℚ)) = 5742089524897382 / 2 ^ 52 := by
  have hmax : ((max 200 1 : ℕ) : ℚ) = 200 := by norm_num
  rw [hmax]
  have h255 : (255 : ℚ) / 200 = 51 / 40 := by norm_num
  rw [h255]
  apply fl_eval (e := 0)
  · norm_num
  · have h1 : ⌊(51 / 40 : ℚ)⌋ = 1 := by
      rw [Int.floor_eq_iff]; norm_num
    rw [h1]
    simp [Nat.log2]
  · apply roundHalfEven_of_lt _ 5742089524897382
    · rw [Int.floor_eq_iff]; norm_num
    · norm_num

/-- The corrected value of sampled channel 100 against reference channel
200 is 127 (not 128): `100 · fl(255/200)` rounds to a double just below
`127.5`. -/
lemma correctChannel_200_100 : correctChannel 200 100 = 127 := by
  rw [correctChannel_unfold, fl_scale_200]
  have hq1 : ((100 : ℕ) : ℚ) * (5742089524897382 / 2 ^ 52) = 71776119061217275 / 2 ^ 49 := by
    norm_num
  rw [hq1]
  have h2 : fl (71776119061217275 / 2 ^ 49) = 8972014882652159 / 2 ^ 46 := by
    apply fl_eval (e := 6)
    · norm_num
    · have h1 : ⌊(71776119061217275 / 2 ^ 49 : ℚ)⌋ = 127 := by
        rw [Int.floor_eq_iff]; norm_num
      rw [h1]
      simp [Nat.log2]
    · have harg : (71776119061217275 / 2 ^ 49 : ℚ) * 2 ^ (52 - 6) = 71776119061217275 / 8 := by
        norm_num
      rw [harg]
      apply roundHalfEven_of_lt _ 8972014882652159
      · rw [Int.floor_eq_iff]; norm_num
      · norm_num
  rw [h2]
  have h3 : jsRound (8972014882652159 / 2 ^ 46 : ℚ) = 127 := by
    unfold jsRound
    rw [Int.floor_eq_iff]; norm_num
  rw [h3]
  rfl

/-- Value of the specification-worded (exact-arithmetic) formula at
reference 200, sample 100: exactly 127.5, which rounds half-up to 128. -/
lemma specCorrectChannel_200_100 : specCorrectChannel 200 100 = 128 := by
  unfold specCorrectChannel jsRound
  have hmax : ((max 200 1 : ℕ) : ℚ) = 200 := by norm_num
  rw [hmax]
  have harg : min (255 : ℚ) (((100 : ℕ) : ℚ) * (255 / 200)) = 255 / 2 := by
    rw [min_eq_right (by norm_num)]
    norm_num
  rw [harg]
  have hfl : ⌊(255 / 2 : ℚ) + 1 / 2⌋ = 128 := by
    rw [Int.floor_eq_iff]; norm_num
  rw [hfl]
  rfl

lemma roundHalfEven_intCast (n : ℤ) : roundHalfEven (n : ℚ) = n := by
  rw [roundHalfEven_unfold]
  norm_num

lemma roundHalfEven_ge (q : ℚ) : q - 1 / 2 ≤ (roundHalfEven q : ℚ) := by
  have h1 : (⌊q⌋ : ℚ) ≤ q := Int.floor_le q
  have h2 : q < ⌊q⌋ + 1 := Int.lt_floor_add_one q
  rw [roundHalfEven_unfold]
  split_ifs with ha hb hc <;> push_cast <;> linarith

lemma roundHalfEven_le (q : ℚ) : (roundHalfEven q : ℚ) ≤ q + 1 / 2 := by
  have h1 : (⌊q⌋ : ℚ) ≤ q := Int.floor_le q
  have h2 : q < ⌊q⌋ + 1 := Int.lt_floor_add_one q
  rw [roundHalfEven_unfold]
  split_ifs with ha hb hc <;> push_cast <;> linarith

lemma fl_natCast (n : ℕ) : fl (n : ℚ) = n := by
  rcases Nat.eq_zero_or_pos n with h0 | hp
  · subst h0
    simp [fl_unfold]
  · have hq : ¬(n : ℚ) ≤ 0 := by
      rw [not_le]
      exact_mod_cast hp
    rw [fl_unfold, if_neg hq]
    have hcast : (n : ℚ) * 2 ^ (52 - Nat.log2 ⌊(n : ℚ)⌋.toNat) =
        (((n * 2 ^ (52 - Nat.log2 ⌊(n : ℚ)⌋.toNat) : ℕ) : ℤ) : ℚ) := by
      push_cast
      ring
    rw [hcast, roundHalfEven_intCast]
    push_cast
    rw [mul_div_assoc, div_self (by positivity), mul_one]

lemma jsRound_natCast (x : ℕ) : jsRound (x : ℚ) = x := by
  unfold jsRound
  rw [Int.floor_eq_iff]; norm_num

/-- Exponent bound: a rational in `[1, 2^17)` has `Nat.log2 ⌊q⌋.toNat ≤ 16`. -/
lemma log2_floor_le_16 (q : ℚ) (_h1 : 1 ≤ q) (h2 : q < 2 ^ 17) :
    Nat.log2 ⌊q⌋.toNat ≤ 16 := by
  have hfl : ⌊q⌋ < 2 ^ 17 := by
    have := Int.floor_le q
    have : (⌊q⌋ : ℚ) < 2 ^ 17 := lt_of_le_of_lt (Int.floor_le q) h2
    exact_mod_cast this
  have hnat : ⌊q⌋.toNat < 2 ^ 17 := by omega
  rcases Nat.eq_zero_or_pos ⌊q⌋.toNat with h0 | hp
  · rw [h0]
    simp [Nat.log2]
  · have := (Nat.log2_lt (by omega : ⌊q⌋.toNat ≠ 0)).mpr hnat
    omega

/-- Lower bound on binary64 rounding in the working range: the rounded
value loses at most `2 ^ (-37)`. -/
lemma fl_ge (q : ℚ) (h1 : 1 ≤ q) (h2 : q < 2 ^ 17) : q - 1 / 2 ^ 37 ≤ fl q := by
  have hq : ¬q ≤ 0 := by linarith
  rw [fl_unfold, if_neg hq]
  set e := Nat.log2 ⌊q⌋.toNat with he
  have hele : e ≤ 16 := log2_floor_le_16 q h1 h2
  set k := 52 - e with hk
  have hkge : 36 ≤ k := by omega
  have h2k : (0 : ℚ) < 2 ^ k := by positivity
  have hrhe := roundHalfEven_ge (q * 2 ^ k)
  have step : q - 1 / 2 ^ (k + 1) ≤ (roundHalfEven (q * 2 ^ k) : ℚ) / 2 ^ k := by
    rw [le_div_iff h2k]
    have : (q - 1 / 2 ^ (k + 1)) * 2 ^ k = q * 2 ^ k - 1 / 2 := by
      rw [pow_succ]
      field_simp
      ring
    rw [this]
    linarith
  have mono : q - 1 / 2 ^ 37 ≤ q - 1 / 2 ^ (k + 1) := by
    have hpow : (2 : ℚ) ^ 37 ≤ 2 ^ (k + 1) := by
      apply pow_le_pow_right (by norm_num)
      omega
    have h37 : (0 : ℚ) < 2 ^ 37 := by positivity
    have hk1 : (0 : ℚ) < 2 ^ (k + 1) := by positivity
    have : 1 / 2 ^ (k + 1) ≤ 1 / (2 : ℚ) ^ 37 := by
      apply one_div_le_one_div_of_le h37 hpow
    linarith
  linarith

/-- Coarse upper bound on binary64 rounding: at most `1/2` is gained. -/
lemma fl_le_add_half (q : ℚ) (h1 : 0 < q) : fl q ≤ q + 1 / 2 := by
  have hq : ¬q ≤ 0 := by linarith
  rw [fl_unfold, if_neg hq]
  set k := 52 - Nat.log2 ⌊q⌋.toNat with hk
  have h2k : (1 : ℚ) ≤ 2 ^ k := by
    calc (1 : ℚ) = 1 ^ k := (one_pow k).symm
    _ ≤ 2 ^ k := pow_le_pow_left (by norm_num) (by norm_num) k
  have h2kpos : (0 : ℚ) < 2 ^ k := by positivity
  rw [div_le_iff h2kpos]
  have hrhe := roundHalfEven_le (q * 2 ^ k)
  have : (q + 1 / 2) * 2 ^ k = q * 2 ^ k + (1 / 2) * 2 ^ k := by ring
  rw [this]
  have : (1 / 2 : ℚ) ≤ (1 / 2) * 2 ^ k := by nlinarith
  linarith

/-- Monotone-from-below: rounding a value that is at least 1 yields at
least 1 (the rounded significand cannot drop below `2 ^ k`). -/
lemma one_le_fl (q : ℚ) (h1 : 1 ≤ q) : 1 ≤ fl q := by
  have hq : ¬q ≤ 0 := by linarith
  rw [fl_unfold, if_neg hq]
  set k := 52 - Nat.log2 ⌊q⌋.toNat with hk
  have h2kpos : (0 : ℚ) < 2 ^ k := by positivity
  rw [le_div_iff h2kpos, one_mul]
  have hrhe := roundHalfEven_ge (q * 2 ^ k)
  have hlow : (2 : ℚ) ^ k - 1 / 2 ≤ (roundHalfEven (q * 2 ^ k) : ℚ) := by
    have : (2 : ℚ) ^ k ≤ q * 2 ^ k := by nlinarith
    linarith
  have hint : (2 ^ k - 1 : ℤ) < roundHalfEven (q * 2 ^ k) := by
    have : ((2 ^ k - 1 : ℤ) : ℚ) < (roundHalfEven (q * 2 ^ k) : ℚ) := by
      push_cast
      linarith
    exact_mod_cast this
  have : (2 ^ k : ℤ) ≤ roundHalfEven (q * 2 ^ k) := by omega
  have : ((2 ^ k : ℤ) : ℚ) ≤ (roundHalfEven (q * 2 ^ k) : ℚ) := by exact_mod_cast this
  push_cast at this
  linarith

/-! ### Hex round-trip lemmas -/

lemma hexVal_hexChar_mod (x : ℕ) : hexVal (hexChar (x % 16)) = x % 16 := by
  have h : x % 16 < 16 := Nat.mod_lt _ (by norm_num)
  revert h
  generalize x % 16 = d
  intro h
  interval_cases d <;> decide

lemma isHexDigit_hexChar_mod (x : ℕ) : isHexDigit (hexChar (x % 16)) = true := by
  have h : x % 16 < 16 := Nat.mod_lt _ (by norm_num)
  revert h
  generalize x % 16 = d
  intro h
  interval_cases d <;> decide

lemma parse_byte (x : ℕ) (h : x < 256) :
    16 * hexVal (hexChar (x / 16 % 16)) + hexVal (hexChar (x % 16)) = x := by
  rw [hexVal_hexChar_mod, hexVal_hexChar_mod]
  omega

/-- Serializing a valid RGB triple and parsing it back is the identity:
the 6-digit branch of the colord hex parser inverts the serializer. -/
lemma parseHexColor_toHexString (c : RGB) (h : c.valid) :
    parseHexColor (toHexString c) = some c := by
  obtain ⟨r, g, b⟩ := c
  obtain ⟨hr, hg, hb⟩ := h
  show parseHexColor ⟨'#' :: (byteToHex r ++ byteToHex g ++ byteToHex b)⟩ = _
  simp only [byteToHex, List.cons_append, List.nil_append]
  simp only [parseHexColor, hexBody, List.all_cons, List.all_nil, isHexDigit_hexChar_mod,
    Bool.and_self, Bool.and_true, if_true]
  simp only [Option.some.injEq, RGB.mk.injEq]
  refine ⟨parse_byte r ?_, parse_byte g ?_, parse_byte b ?_⟩ <;> simp at hr hg hb <;> omega

lemma colordRgbOf_toHexString (c : RGB) (h : c.valid) :
    colordRgbOf (toHexString c) = c := by
  rw [colordRgbOf, parseHexColor_toHexString c h]
  rfl

/-! ### Channel-level corollaries of the binary64 model -/

/-- With a pure-white reference channel the correction fixes every valid
channel: the scale is exactly 1 and rounding an integer is exact. -/
lemma correctChannel_255 (x : ℕ) (hx : x ≤ 255) : correctChannel 255 x = x := by
  rw [correctChannel_unfold]
  have hmax : ((max 255 1 : ℕ) : ℚ) = 255 := by norm_num
  rw [hmax]
  have hone : (255 : ℚ) / 255 = ((1 : ℕ) : ℚ) := by norm_num
  rw [hone, fl_natCast]
  have hx1 : ((x : ℕ) : ℚ) * ((1 : ℕ) : ℚ) = ((x : ℕ) : ℚ) := by push_cast; ring
  rw [hx1, fl_natCast, jsRound_natCast]
  omega

/-- The corrected channel never darkens: for in-range inputs the binary64
scale is at least 1 and rounding loses less than one half, so the rounded
result stays at or above the raw channel. -/
lemma le_correctChannel (m x : ℕ) (hm : m ≤ 255) (hx : x ≤ 255) :
    x ≤ correctChannel m x := by
  rcases Nat.eq_zero_or_pos x with h0 | hp
  · omega
  rw [correctChannel_unfold]
  set mm := max m 1 with hmm
  have hmm1 : 1 ≤ mm := le_max_right m 1
  have hmm255 : mm ≤ 255 := by omega
  set q0 : ℚ := (255 : ℚ) / (mm : ℚ) with hq0
  have hmmq : (1 : ℚ) ≤ (mm : ℚ) := by exact_mod_cast hmm1
  have hmmq' : ((mm : ℕ) : ℚ) ≤ 255 := by exact_mod_cast hmm255
  have hq0ge : (1 : ℚ) ≤ q0 := by
    rw [hq0, le_div_iff (by linarith)]
    linarith
  have hq0le : q0 ≤ 255 := by
    rw [hq0, div_le_iff (by linarith)]
    nlinarith
  set scale := fl q0 with hscale
  have hs1 : (1 : ℚ) ≤ scale := one_le_fl q0 hq0ge
  have hs2 : scale ≤ 255 + 1 / 2 := le_trans (fl_le_add_half q0 (by linarith)) (by linarith)
  set q1 : ℚ := ((x : ℕ) : ℚ) * scale with hq1
  have hxq : (1 : ℚ) ≤ ((x : ℕ) : ℚ) := by exact_mod_cast hp
  have hxq' : ((x : ℕ) : ℚ) ≤ 255 := by exact_mod_cast hx
  have hq1ge : (1 : ℚ) ≤ q1 := by nlinarith
  have hq1gex : ((x : ℕ) : ℚ) ≤ q1 := by nlinarith
  have hq1lt : q1 < 2 ^ 17 := by nlinarith
  have hprod := fl_ge q1 hq1ge hq1lt
  have hjs : (x : ℤ) ≤ jsRound (fl q1) := by
    unfold jsRound
    rw [Int.le_floor]
    push_cast
    have : (1 : ℚ) / 2 ^ 37 < 1 / 2 := by norm_num
    linarith
  have htn : x ≤ (jsRound (fl q1)).toNat := by omega
  omega

/-- The correction pipeline factors through the per-channel formula: for a
valid sampled triple, hex-decoding, scaling each channel and re-encoding
equals the channel-wise corrected triple, serialized. -/
lemma getCorrectedColor_channelwise (w c : RGB) (hc : c.valid) :
    getCorrectedColor (some w) (toHexString c) =
      toHexString
        ⟨correctChannel w.r c.r, correctChannel w.g c.g, correctChannel w.b c.b⟩ := by
  simp only [getCorrectedColor, correctChannel_unfold, colordRgbOf_toHexString c hc]

/-- The colord hex parser succeeds exactly on bodies of length 3, 4, 6 or 8
consisting of hex digits. -/
lemma parseHexColor_isSome_iff (s : String) :
    (parseHexColor s).isSome = true ↔
      ((hexBody s).length = 3 ∨ (hexBody s).length = 4 ∨ (hexBody s).length = 6 ∨
        (hexBody s).length = 8) ∧ (hexBody s).all isHexDigit = true := by
  simp only [parseHexColor]
  by_cases hall : (hexBody s).all isHexDigit = true
  · simp only [hall, if_true, and_true]
    rcases hexBody s with _ | ⟨a, _ | ⟨b, _ | ⟨c, _ | ⟨d, _ | ⟨e, _ | ⟨f, _ | ⟨g, _ |
      ⟨h, _ | ⟨i, t⟩⟩⟩⟩⟩⟩⟩⟩⟩ <;> simp
  · simp [hall]

lemma toHexString_ne_empty (c : RGB) : toHexString c ≠ "" := by
  simp [toHexString, String.ext_iff]

lemma correctChannel_le_255 (m x : ℕ) : correctChannel m x ≤ 255 := by
  rw [correctChannel_unfold]
  exact min_le_left _ _

/-! ### Claims -/

/-- C1: whenever no drag is active, each externally supplied color update
re-derives the internal HSV snapshot from that color; whenever a drag is
active on either the saturation/brightness plane or the hue axis, every
externally supplied color update leaves the internal HSV snapshot
unchanged; pointer-up returns the controller to the idle (no-drag)
state. -/
theorem C1_external_updates_respect_drag_state (st : WheelState) (color : String) :
    (st.dragTarget = none →
      (syncFromProps color st).hsv = colordToHsv (colordRgbOf color)) ∧
    (∀ t : DragTarget, st.dragTarget = some t →
      (syncFromProps color st).hsv = st.hsv) ∧
    (handleUp st).dragTarget = none := by
  refine ⟨?_, ?_, rfl⟩
  · intro h
    simp [syncFromProps, h]
  · intro t ht
    simp [syncFromProps, ht]

/-- Witness for C1 at concrete states: an idle controller adopts the
external color, a controller dragging the plane keeps its snapshot, and
pointer-up clears the drag target. -/
theorem C1_external_updates_respect_drag_state_witness :
    (syncFromProps "#ff0000"
        (⟨⟨0, 0, 0⟩, none, "", false, []⟩ : WheelState)).hsv =
      colordToHsv (colordRgbOf "#ff0000") ∧
    (syncFromProps "#ff0000"
        (⟨⟨120, 50, 50⟩, some .sb, "", false, []⟩ : WheelState)).hsv =
      (⟨⟨120, 50, 50⟩, some .sb, "", false, []⟩ : WheelState).hsv ∧
    (handleUp (⟨⟨120, 50, 50⟩, some .sb, "", false, []⟩ : WheelState)).dragTarget = none :=
  ⟨(C1_external_updates_respect_drag_state ⟨⟨0, 0, 0⟩, none, "", false, []⟩ "#ff0000").1 rfl,
   (C1_external_updates_respect_drag_state ⟨⟨120, 50, 50⟩, some .sb, "", false, []⟩
      "#ff0000").2.1 .sb rfl,
   (C1_external_updates_respect_drag_state ⟨⟨120, 50, 50⟩, some .sb, "", false, []⟩
      "#ff0000").2.2⟩

/-- C2 counterexample: the code maps sampled (100,100,100) with reference
(200,200,200) to (127,127,127), not (128,128,128) as the claim states —
the claim's exact-arithmetic formula yields 128, while `100 · fl(255/200)`
is a binary64 value just below 127.5. -/
theorem C2_counterexample_rounds_to_127 :
    getCorrectedColor (some ⟨200, 200, 200⟩) (toHexString ⟨100, 100, 100⟩) =
      toHexString ⟨127, 127, 127⟩ ∧
    toHexString ⟨127, 127, 127⟩ ≠ toHexString ⟨128, 128, 128⟩ ∧
    specCorrectChannel 200 100 = 128 := by
  refine ⟨?_, by decide, specCorrectChannel_200_100⟩
  rw [getCorrectedColor_channelwise ⟨200, 200, 200⟩ ⟨100, 100, 100⟩ (by decide)]
  show toHexString
      ⟨correctChannel 200 100, correctChannel 200 100, correctChannel 200 100⟩ = _
  rw [correctChannel_200_100]

/-- C2 (amended): the white-balance correction computes, for each channel,
`scale = 255 / max(reference, 1)` and `min(255, round(sampled · scale))`
in IEEE-754 binary64 arithmetic; with reference (200,200,200) the sampled
color (100,100,100) is mapped to (127,127,127). -/
theorem C2_white_balance_channelwise_binary64 (w c : RGB) (hc : c.valid) :
    getCorrectedColor (some w) (toHexString c) =
      toHexString
        ⟨correctChannel w.r c.r, correctChannel w.g c.g, correctChannel w.b c.b⟩ ∧
    correctChannel 200 100 = 127 :=
  ⟨getCorrectedColor_channelwise w c hc, correctChannel_200_100⟩

/-- Witness for C2 (amended) at reference (200,200,200) and sample
(100,100,100). -/
theorem C2_white_balance_channelwise_binary64_witness :
    (⟨100, 100, 100⟩ : RGB).valid ∧
    getCorrectedColor (some ⟨200, 200, 200⟩) (toHexString ⟨100, 100, 100⟩) =
      toHexString
        ⟨correctChannel 200 100, correctChannel 200 100, correctChannel 200 100⟩ :=
  ⟨by decide,
   (C2_white_balance_channelwise_binary64 ⟨200, 200, 200⟩ ⟨100, 100, 100⟩ (by decide)).1⟩

/-- C4: the white-balance correction is the identity when no reference has
been captured (in particular on the hex form of (10,20,30)), and when the
captured reference is pure white (255,255,255). -/
theorem C4_identity_without_reference_and_at_pure_white :
    (∀ hex : String, getCorrectedColor Option.none hex = hex) ∧
    (∀ c : RGB, c.valid →
      getCorrectedColor (some ⟨255, 255, 255⟩) (toHexString c) = toHexString c) ∧
    getCorrectedColor Option.none (toHexString ⟨10, 20, 30⟩) = toHexString ⟨10, 20, 30⟩ := by
  refine ⟨fun hex => rfl, ?_, rfl⟩
  intro c hc
  rw [getCorrectedColor_channelwise ⟨255, 255, 255⟩ c hc]
  obtain ⟨r, g, b⟩ := c
  obtain ⟨hr, hg, hb⟩ := hc
  show toHexString ⟨correctChannel 255 r, correctChannel 255 g, correctChannel 255 b⟩ = _
  rw [correctChannel_255 r (by simpa using hr), correctChannel_255 g (by simpa using hg),
    correctChannel_255 b (by simpa using hb)]

/-- Witness for C4: pure-white reference fixes the concrete sample
(10,20,30). -/
theorem C4_identity_without_reference_and_at_pure_white_witness :
    (⟨10, 20, 30⟩ : RGB).valid ∧
    getCorrectedColor (some ⟨255, 255, 255⟩) (toHexString ⟨10, 20, 30⟩) =
      toHexString ⟨10, 20, 30⟩ :=
  ⟨by decide,
   C4_identity_without_reference_and_at_pure_white.2.1 ⟨10, 20, 30⟩ (by decide)⟩

/-- C5 counterexample: from a calibrated state, starting a new capture
session and capturing a new photo (replacing the active image) leaves the
previously set white reference in place — it is not discarded. -/
theorem C5_counterexample_capture_keeps_reference :
    (capturePhoto ⟨1, 1, fun _ _ => ⟨0, 0, 0⟩⟩
        (startCamera
          (⟨.sampler, false, some ⟨1, 1, fun _ _ => ⟨0, 0, 0⟩⟩, Option.none, true,
            .none, some ⟨1, 2, 3⟩, Option.none, []⟩ : CanvasState))).whiteReference =
      some ⟨1, 2, 3⟩ ∧
    some (⟨1, 2, 3⟩ : RGB) ≠ Option.none :=
  ⟨rfl, by decide⟩

/-- C5 (amended): uploading a new image file discards any previously set
white reference, but starting a new capture session (`startCamera`) and
capturing a new photo (`capturePhoto`) leave the white reference
unchanged; only the pick-white pointer-up of a calibration pass replaces
it. -/
theorem C5_upload_clears_capture_preserves
    (st : CanvasState) (img frame : Surface) :
    (handleFileUpload img st).whiteReference = Option.none ∧
    (startCamera st).whiteReference = st.whiteReference ∧
    (capturePhoto frame st).whiteReference = st.whiteReference :=
  ⟨rfl, rfl, rfl⟩

/-- For a nonnegative coordinate inside the bitmap, truncation toward
zero agrees with the floor, and the read returns the containing pixel. -/
lemma getImageData_of_mem (surf : Surface) (x y : ℚ)
    (hx : 0 ≤ x ∧ x < surf.width) (hy : 0 ≤ y ∧ y < surf.height) :
    getImageData surf x y = surf.pixel ⌊x⌋.toNat ⌊y⌋.toNat := by
  have htx : ratTrunc x = ⌊x⌋ := by rw [ratTrunc, if_pos hx.1]
  have hty : ratTrunc y = ⌊y⌋ := by rw [ratTrunc, if_pos hy.1]
  have hx2 : x < ((surf.width : ℤ) : ℚ) := by exact_mod_cast hx.2
  have hy2 : y < ((surf.height : ℤ) : ℚ) := by exact_mod_cast hy.2
  simp only [getImageData, htx, hty]
  rw [if_pos ⟨Int.floor_nonneg.mpr hx.1, Int.floor_lt.mpr hx2,
    Int.floor_nonneg.mpr hy.1, Int.floor_lt.mpr hy2⟩]

/-- For a truncated coordinate outside the bitmap, the read returns
transparent black, i.e. the RGB color (0,0,0). -/
lemma getImageData_oob (surf : Surface) (x y : ℚ)
    (hout : ¬(0 ≤ ratTrunc x ∧ ratTrunc x < (surf.width : ℤ) ∧
              0 ≤ ratTrunc y ∧ ratTrunc y < (surf.height : ℤ))) :
    getImageData surf x y = ⟨0, 0, 0⟩ := by
  simp only [getImageData]
  rw [if_neg hout]

/-- A move or down event over a mounted sampler canvas whose mapped
coordinate lands at native pixel `(px, py)` inside the surface stores a
loupe holding the hex form of exactly that one pixel as its raw color. -/
lemma handlePointer_move_raw
    (surf : Surface) (rect : Rect) (st : CanvasState) (e : PointerEvent) (px py : ℕ)
    (himg : st.imageSrc = some surf)
    (htype : e.type = .pointermove)
    (hx : 0 ≤ (e.clientX - rect.left) * ((surf.width : ℚ) / rect.width) ∧
          (e.clientX - rect.left) * ((surf.width : ℚ) / rect.width) < surf.width)
    (hy : 0 ≤ (e.clientY - rect.top) * ((surf.height : ℚ) / rect.height) ∧
          (e.clientY - rect.top) * ((surf.height : ℚ) / rect.height) < surf.height)
    (hpx : ⌊(e.clientX - rect.left) * ((surf.width : ℚ) / rect.width)⌋.toNat = px)
    (hpy : ⌊(e.clientY - rect.top) * ((surf.height : ℚ) / rect.height)⌋.toNat = py) :
    (handlePointer rect e st).loupe.map Loupe.rawColor =
      some (some (toHexString (surf.pixel px py))) := by
  simp only [handlePointer, himg, htype]
  rw [getImageData_of_mem surf _ _ hx hy, hpx, hpy]
  rfl

/-- C3: a sampling pointer event maps the display-space point to native
coordinates with `scaleX = nativeWidth / displayWidth` and
`scaleY = nativeHeight / displayHeight` applied to the surface-relative
offset, and reads exactly the one pixel containing that native point; for
a 1920×1080 surface rendered at 480×270, a pointer at display coordinate
(240,135) samples native pixel (960,540). -/
theorem C3_display_to_native_scaling
    (surf : Surface) (rect : Rect) (st : CanvasState) (e : PointerEvent)
    (himg : st.imageSrc = some surf)
    (htype : e.type = .pointermove)
    (hx : 0 ≤ (e.clientX - rect.left) * ((surf.width : ℚ) / rect.width) ∧
          (e.clientX - rect.left) * ((surf.width : ℚ) / rect.width) < surf.width)
    (hy : 0 ≤ (e.clientY - rect.top) * ((surf.height : ℚ) / rect.height) ∧
          (e.clientY - rect.top) * ((surf.height : ℚ) / rect.height) < surf.height) :
    (handlePointer rect e st).loupe.map Loupe.rawColor =
      some (some (toHexString (surf.pixel
        ⌊(e.clientX - rect.left) * ((surf.width : ℚ) / rect.width)⌋.toNat
        ⌊(e.clientY - rect.top) * ((surf.height : ℚ) / rect.height)⌋.toNat))) ∧
    (∀ pix : ℕ → ℕ → RGB,
      (handlePointer ⟨0, 0, 480, 270⟩ ⟨.pointermove, 240, 135⟩
          { st with imageSrc := some ⟨1920, 1080, pix⟩ }).loupe.map Loupe.rawColor =
        some (some (toHexString (pix 960 540)))) := by
  constructor
  · exact handlePointer_move_raw surf rect st e _ _ himg htype hx hy rfl rfl
  · intro pix
    exact handlePointer_move_raw ⟨1920, 1080, pix⟩ ⟨0, 0, 480, 270⟩
      { st with imageSrc := some ⟨1920, 1080, pix⟩ } ⟨.pointermove, 240, 135⟩ 960 540
      rfl rfl ⟨by norm_num, by norm_num⟩ ⟨by norm_num, by norm_num⟩
      (by norm_num; rfl) (by norm_num; rfl)

/-- Witness for C3: on a concrete 1920×1080 surface rendered at 480×270, a
move event at (240,135) stores a loupe whose raw color is the sampled
pixel. -/
theorem C3_display_to_native_scaling_witness :
    ((0 : ℚ) ≤ ((240 : ℚ) - 0) * (((1920 : ℕ) : ℚ) / 480) ∧
      ((240 : ℚ) - 0) * (((1920 : ℕ) : ℚ) / 480) < (1920 : ℕ)) ∧
    (handlePointer ⟨0, 0, 480, 270⟩ ⟨.pointermove, 240, 135⟩
        (⟨.sampler, false, some ⟨1920, 1080, fun _ _ => ⟨1, 2, 3⟩⟩, Option.none, false,
          .none, Option.none, Option.none, []⟩ : CanvasState)).loupe.map Loupe.rawColor =
      some (some (toHexString ⟨1, 2, 3⟩)) :=
  ⟨⟨by norm_num, by norm_num⟩,
   (C3_display_to_native_scaling ⟨1920, 1080, fun _ _ => ⟨1, 2, 3⟩⟩ ⟨0, 0, 480, 270⟩
      (⟨.sampler, false, some ⟨1920, 1080, fun _ _ => ⟨1, 2, 3⟩⟩, Option.none, false,
        .none, Option.none, Option.none, []⟩ : CanvasState)
      ⟨.pointermove, 240, 135⟩ rfl rfl
      ⟨by norm_num, by norm_num⟩ ⟨by norm_num, by norm_num⟩).1⟩

/-- A move or down event whose truncated mapped coordinate falls outside
the native surface: the single-pixel read returns transparent black and
the handler stores a loupe previewing that black color — the state is
otherwise unchanged and the handler returns normally. -/
lemma handlePointer_move_oob
    (surf : Surface) (rect : Rect) (st : CanvasState) (e : PointerEvent)
    (himg : st.imageSrc = some surf)
    (htype : e.type = .pointermove)
    (hout : ¬(0 ≤ ratTrunc ((e.clientX - rect.left) * ((surf.width : ℚ) / rect.width)) ∧
              ratTrunc ((e.clientX - rect.left) * ((surf.width : ℚ) / rect.width)) <
                (surf.width : ℤ) ∧
              0 ≤ ratTrunc ((e.clientY - rect.top) * ((surf.height : ℚ) / rect.height)) ∧
              ratTrunc ((e.clientY - rect.top) * ((surf.height : ℚ) / rect.height)) <
                (surf.height : ℤ))) :
    handlePointer rect e st =
      { st with loupe := some ⟨e.clientX, e.clientY,
          (if st.calibrationStep = .pick_white then toHexString ⟨0, 0, 0⟩
           else getCorrectedColor st.whiteReference (toHexString ⟨0, 0, 0⟩)),
          some (toHexString ⟨0, 0, 0⟩)⟩ } := by
  simp only [handlePointer, himg, htype]
  rw [getImageData_oob surf _ _ hout]

/-- A concrete idle sampler state over a constant (1,2,3) surface, used to
exhibit the out-of-bounds preview behavior. -/
def canvasStateC8 : CanvasState :=
  ⟨.sampler, false, some ⟨1920, 1080, fun _ _ => ⟨1, 2, 3⟩⟩, Option.none, false,
    .none, Option.none, Option.none, []⟩

/-- C8 counterexample: a pointer at display x = 500 on a 480-wide rendering
of a 1920-wide surface maps to native x = 2000, outside the bitmap; the
canvas API returns transparent black there rather than throwing, so the
handler produces a loupe previewing #000000 — a preview value is produced
and the loupe is not suppressed, contrary to the claim. -/
theorem C8_counterexample_black_preview :
    (handlePointer ⟨0, 0, 480, 270⟩ ⟨.pointermove, 500, 10⟩ canvasStateC8).loupe =
      some ⟨500, 10, toHexString ⟨0, 0, 0⟩, some (toHexString ⟨0, 0, 0⟩)⟩ ∧
    (handlePointer ⟨0, 0, 480, 270⟩ ⟨.pointermove, 500, 10⟩ canvasStateC8).loupe ≠
      Option.none := by
  have ht : ratTrunc (((500 : ℚ) - 0) * (((1920 : ℕ) : ℚ) / 480)) = 2000 := by
    rw [ratTrunc, if_pos (by norm_num)]
    norm_num
  have h := handlePointer_move_oob ⟨1920, 1080, fun _ _ => ⟨1, 2, 3⟩⟩ ⟨0, 0, 480, 270⟩
    canvasStateC8 ⟨.pointermove, 500, 10⟩ rfl rfl
    (by
      intro hcon
      rw [show ((⟨.pointermove, 500, 10⟩ : PointerEvent).clientX -
          (⟨0, 0, 480, 270⟩ : Rect).left) *
          (((⟨1920, 1080, fun _ _ => ⟨1, 2, 3⟩⟩ : Surface).width : ℚ) /
            (⟨0, 0, 480, 270⟩ : Rect).width) =
          ((500 : ℚ) - 0) * (((1920 : ℕ) : ℚ) / 480) from rfl, ht] at hcon
      have := hcon.2.1
      norm_num at this)
  rw [h]
  refine ⟨rfl, by simp⟩

/-- C8 (amended): for every pointer position whose truncated mapped
coordinate falls outside the native surface, the single-pixel read does
not fail — it returns transparent black — and the handler does not crash
or surface an error: it stores a loupe previewing that black color
(corrected, outside the pick-white step, by any active white reference)
instead of suppressing the preview. -/
theorem C8_out_of_bounds_previews_black
    (surf : Surface) (rect : Rect) (st : CanvasState) (e : PointerEvent)
    (himg : st.imageSrc = some surf)
    (htype : e.type = .pointermove)
    (hout : ¬(0 ≤ ratTrunc ((e.clientX - rect.left) * ((surf.width : ℚ) / rect.width)) ∧
              ratTrunc ((e.clientX - rect.left) * ((surf.width : ℚ) / rect.width)) <
                (surf.width : ℤ) ∧
              0 ≤ ratTrunc ((e.clientY - rect.top) * ((surf.height : ℚ) / rect.height)) ∧
              ratTrunc ((e.clientY - rect.top) * ((surf.height : ℚ) / rect.height)) <
                (surf.height : ℤ))) :
    getImageData surf ((e.clientX - rect.left) * ((surf.width : ℚ) / rect.width))
        ((e.clientY - rect.top) * ((surf.height : ℚ) / rect.height)) = ⟨0, 0, 0⟩ ∧
    handlePointer rect e st =
      { st with loupe := some ⟨e.clientX, e.clientY,
          (if st.calibrationStep = .pick_white then toHexString ⟨0, 0, 0⟩
           else getCorrectedColor st.whiteReference (toHexString ⟨0, 0, 0⟩)),
          some (toHexString ⟨0, 0, 0⟩)⟩ } :=
  ⟨getImageData_oob surf _ _ hout, handlePointer_move_oob surf rect st e himg htype hout⟩

/-- Witness for C8 (amended): the concrete out-of-bounds pointer at
(500,10) on the 480×270 rendering yields the transparent-black read and
the black-previewing loupe. -/
theorem C8_out_of_bounds_previews_black_witness :
    ¬((0 : ℤ) ≤ ratTrunc (((500 : ℚ) - 0) * (((1920 : ℕ) : ℚ) / 480)) ∧
      ratTrunc (((500 : ℚ) - 0) * (((1920 : ℕ) : ℚ) / 480)) < ((1920 : ℕ) : ℤ) ∧
      (0 : ℤ) ≤ ratTrunc (((10 : ℚ) - 0) * (((1080 : ℕ) : ℚ) / 270)) ∧
      ratTrunc (((10 : ℚ) - 0) * (((1080 : ℕ) : ℚ) / 270)) < ((1080 : ℕ) : ℤ)) ∧
    handlePointer ⟨0, 0, 480, 270⟩ ⟨.pointermove, 500, 10⟩ canvasStateC8 =
      { canvasStateC8 with loupe := some ⟨500, 10, toHexString ⟨0, 0, 0⟩,
          some (toHexString ⟨0, 0, 0⟩)⟩ } :=
  ⟨by
    intro hcon
    rw [show ratTrunc (((500 : ℚ) - 0) * (((1920 : ℕ) : ℚ) / 480)) = 2000 from by
      rw [ratTrunc, if_pos (by norm_num)]
      norm_num] at hcon
    have := hcon.2.1
    norm_num at this,
   (C8_out_of_bounds_previews_black ⟨1920, 1080, fun _ _ => ⟨1, 2, 3⟩⟩ ⟨0, 0, 480, 270⟩
      canvasStateC8 ⟨.pointermove, 500, 10⟩ rfl rfl
      (by
        intro hcon
        rw [show ((⟨.pointermove, 500, 10⟩ : PointerEvent).clientX -
            (⟨0, 0, 480, 270⟩ : Rect).left) *
            (((⟨1920, 1080, fun _ _ => ⟨1, 2, 3⟩⟩ : Surface).width : ℚ) /
              (⟨0, 0, 480, 270⟩ : Rect).width) =
            ((500 : ℚ) - 0) * (((1920 : ℕ) : ℚ) / 480) from rfl] at hcon
        rw [show ratTrunc (((500 : ℚ) - 0) * (((1920 : ℕ) : ℚ) / 480)) = 2000 from by
          rw [ratTrunc, if_pos (by norm_num)]
          norm_num] at hcon
        have := hcon.2.1
        norm_num at this)).2⟩

/-- C9: while the pick-white calibration step is active, the loupe shown
for a move event displays the raw (uncorrected) sampled pixel, and the
pointer-up that ends the step sets the white reference from that raw
sample — independently of any previously active correction
(`st.whiteReference` is universally quantified here, so an existing
reference never feeds into the newly captured one). -/
theorem C9_white_reference_set_from_raw_sample
    (surf : Surface) (rect : Rect) (st : CanvasState) (e eUp : PointerEvent) (px py : ℕ)
    (himg : st.imageSrc = some surf)
    (hstep : st.calibrationStep = .pick_white)
    (htype : e.type = .pointermove)
    (hup : eUp.type = .pointerup)
    (hx : 0 ≤ (e.clientX - rect.left) * ((surf.width : ℚ) / rect.width) ∧
          (e.clientX - rect.left) * ((surf.width : ℚ) / rect.width) < surf.width)
    (hy : 0 ≤ (e.clientY - rect.top) * ((surf.height : ℚ) / rect.height) ∧
          (e.clientY - rect.top) * ((surf.height : ℚ) / rect.height) < surf.height)
    (hpx : ⌊(e.clientX - rect.left) * ((surf.width : ℚ) / rect.width)⌋.toNat = px)
    (hpy : ⌊(e.clientY - rect.top) * ((surf.height : ℚ) / rect.height)⌋.toNat = py)
    (hval : (surf.pixel px py).valid) :
    (handlePointer rect e st).loupe.map Loupe.color =
      some (toHexString (surf.pixel px py)) ∧
    (handlePointer rect eUp (handlePointer rect e st)).whiteReference =
      some (surf.pixel px py) := by
  have hmove : handlePointer rect e st =
      { st with loupe := some ⟨e.clientX, e.clientY, toHexString (surf.pixel px py),
          some (toHexString (surf.pixel px py))⟩ } := by
    simp only [handlePointer, himg, htype]
    rw [getImageData_of_mem surf _ _ hx hy, hpx, hpy, hstep]
    simp
  refine ⟨by rw [hmove]; rfl, ?_⟩
  rw [hmove]
  simp only [handlePointer, himg, hup, hstep]
  rw [if_neg (toHexString_ne_empty (surf.pixel px py))]
  rw [colordRgbOf_toHexString _ hval]

/-- A concrete sampler state in the pick-white step over a constant
(5,6,7) surface, with a stale white reference (9,9,9) still set. -/
def canvasStateC9 : CanvasState :=
  ⟨.sampler, false, some ⟨1920, 1080, fun _ _ => ⟨5, 6, 7⟩⟩, Option.none, true,
    .pick_white, some ⟨9, 9, 9⟩, Option.none, []⟩

/-- Witness for C9: with an already-calibrated state (white reference
(9,9,9)) in the pick-white step, a move at (240,135) over a constant
(5,6,7) surface previews #050607 raw, and the following pointer-up sets
the white reference to (5,6,7). -/
theorem C9_white_reference_set_from_raw_sample_witness :
    (⟨5, 6, 7⟩ : RGB).valid ∧
    (handlePointer ⟨0, 0, 480, 270⟩ ⟨.pointermove, 240, 135⟩ canvasStateC9).loupe.map
        Loupe.color = some (toHexString ⟨5, 6, 7⟩) ∧
    (handlePointer ⟨0, 0, 480, 270⟩ ⟨.pointerup, 240, 135⟩
        (handlePointer ⟨0, 0, 480, 270⟩ ⟨.pointermove, 240, 135⟩
          canvasStateC9)).whiteReference = some ⟨5, 6, 7⟩ :=
  ⟨by decide,
   (C9_white_reference_set_from_raw_sample ⟨1920, 1080, fun _ _ => ⟨5, 6, 7⟩⟩
      ⟨0, 0, 480, 270⟩ canvasStateC9 ⟨.pointermove, 240, 135⟩ ⟨.pointerup, 240, 135⟩
      960 540 rfl rfl rfl rfl ⟨by norm_num, by norm_num⟩ ⟨by norm_num, by norm_num⟩
      (by norm_num; rfl) (by norm_num; rfl) (by decide)).1,
   (C9_white_reference_set_from_raw_sample ⟨1920, 1080, fun _ _ => ⟨5, 6, 7⟩⟩
      ⟨0, 0, 480, 270⟩ canvasStateC9 ⟨.pointermove, 240, 135⟩ ⟨.pointerup, 240, 135⟩
      960 540 rfl rfl rfl rfl ⟨by norm_num, by norm_num⟩ ⟨by norm_num, by norm_num⟩
      (by norm_num; rfl) (by norm_num; rfl) (by decide)).2⟩

/-- C10: for every captured white reference and every sampled triple, the
corrected color decodes to a triple in which each channel is at least the
raw sampled channel and at most 255. -/
theorem C10_correction_never_darkens (w c : RGB) (hw : w.valid) (hc : c.valid) :
    ∃ d : RGB,
      parseHexColor (getCorrectedColor (some w) (toHexString c)) = some d ∧
      c.r ≤ d.r ∧ c.g ≤ d.g ∧ c.b ≤ d.b ∧ d.valid := by
  obtain ⟨hwr, hwg, hwb⟩ := hw
  obtain ⟨hcr, hcg, hcb⟩ := hc
  refine ⟨⟨correctChannel w.r c.r, correctChannel w.g c.g, correctChannel w.b c.b⟩,
    ?_, ?_, ?_, ?_, ?_⟩
  · rw [getCorrectedColor_channelwise w c ⟨hcr, hcg, hcb⟩]
    exact parseHexColor_toHexString _
      ⟨correctChannel_le_255 _ _, correctChannel_le_255 _ _, correctChannel_le_255 _ _⟩
  · exact le_correctChannel _ _ hwr hcr
  · exact le_correctChannel _ _ hwg hcg
  · exact le_correctChannel _ _ hwb hcb
  · exact ⟨correctChannel_le_255 _ _, correctChannel_le_255 _ _, correctChannel_le_255 _ _⟩

/-- Witness for C10 at reference (200,200,200) and sample (100,100,100). -/
theorem C10_correction_never_darkens_witness :
    (⟨200, 200, 200⟩ : RGB).valid ∧ (⟨100, 100, 100⟩ : RGB).valid ∧
    ∃ d : RGB,
      parseHexColor (getCorrectedColor (some ⟨200, 200, 200⟩)
          (toHexString ⟨100, 100, 100⟩)) = some d ∧
      100 ≤ d.r ∧ 100 ≤ d.g ∧ 100 ≤ d.b ∧ d.valid :=
  ⟨by decide, by decide,
   C10_correction_never_darkens ⟨200, 200, 200⟩ ⟨100, 100, 100⟩ (by decide) (by decide)⟩

/-- C6 counterexample: the three-character input `F00` is not six hex
digits, yet the hex field handler accepts it and emits a color change
(`#ff0000`) — colord's hex parser also accepts 3-digit (and 4- and
8-digit) hex forms, so parsing does not fail for every non-6-digit
input. -/
theorem C6_counterexample_three_digit_hex_accepted :
    "F00".data.length ≠ 6 ∧
    "F00".data.all isHexDigit = true ∧
    (handleHexInputChange "F00"
        (⟨⟨0, 0, 0⟩, none, "", false, []⟩ : WheelState)).emitted = ["#ff0000"] ∧
    (⟨⟨0, 0, 0⟩, none, "", false, []⟩ : WheelState).emitted = [] := by
  refine ⟨by decide, by decide, ?_, rfl⟩
  rfl

/-- C6 (amended): hex parsing succeeds exactly when the input, after the
optional leading `#` is stripped, is 3, 4, 6 or 8 hex digits; for every
other input (wrong length or a character outside the hex alphabet) the
keystroke only updates the text field — no color change is emitted and no
error is raised. -/
theorem C6_hex_entry_failure_condition (st : WheelState) (val : String) :
    (colordValid (hexClean val) = false →
      handleHexInputChange val st = { st with hexInput := val }) ∧
    (colordValid (hexClean val) = true ↔
      ((hexBody (hexClean val)).length = 3 ∨ (hexBody (hexClean val)).length = 4 ∨
        (hexBody (hexClean val)).length = 6 ∨ (hexBody (hexClean val)).length = 8) ∧
      (hexBody (hexClean val)).all isHexDigit = true) := by
  constructor
  · intro h
    simp only [handleHexInputChange, h]
    rfl
  · exact parseHexColor_isSome_iff (hexClean val)

/-- Witness for C6 (amended): the malformed input `12` (two digits) leaves
the state unchanged apart from the text field. -/
theorem C6_hex_entry_failure_condition_witness :
    colordValid (hexClean "12") = false ∧
    handleHexInputChange "12" (⟨⟨0, 0, 0⟩, none, "", false, []⟩ : WheelState) =
      { (⟨⟨0, 0, 0⟩, none, "", false, []⟩ : WheelState) with hexInput := "12" } :=
  ⟨by decide,
   (C6_hex_entry_failure_condition ⟨⟨0, 0, 0⟩, none, "", false, []⟩ "12").1 (by decide)⟩

/-- C7 counterexample: the hue handler is not the claimed
orientation-aware mapping.  In a container of height 128 (top 0), a touch
at client point (32, 20) yields hue 90 — computed from the horizontal
coordinate 32 — whereas mapping the coordinate along the longer (vertical)
dimension, clientY = 20, would give hue 56. -/
theorem C7_counterexample_touch_reads_clientX :
    (handleHueMove ⟨50, 0, 10, 128⟩ (.touch 32 20)
        (⟨⟨0, 0, 0⟩, some .hue, "", false, []⟩ : WheelState)).hsv.h = 90 ∧
    jsRound (clamp01 (((20 : ℚ) - 0) / 128) * 360) = 56 ∧
    (90 : ℚ) ≠ 56 := by
  refine ⟨?_, ?_, by norm_num⟩
  · show ((jsRound (clamp01 (((32 : ℚ) - 0) / 128) * 360) : ℤ) : ℚ) = 90
    have hcl : clamp01 (((32 : ℚ) - 0) / 128) = 1 / 4 := by
      rw [clamp01, min_eq_right (by norm_num), max_eq_right (by norm_num)]
      norm_num
    rw [hcl]
    have h90 : (1 / 4 : ℚ) * 360 = ((90 : ℕ) : ℚ) := by norm_num
    rw [h90, jsRound_natCast]
    norm_num
  · have hcl : clamp01 (((20 : ℚ) - 0) / 128) = 5 / 32 := by
      rw [clamp01, min_eq_right (by norm_num), max_eq_right (by norm_num)]
      norm_num
    rw [hcl]
    unfold jsRound
    rw [Int.floor_eq_iff]; norm_num

/-- C7 (amended): the hue axis mapping is fixed vertical (no aspect-ratio
measurement): for mouse input the vertical offset within the container,
clamped to [0,1], maps linearly onto [0,360] — with 360 attainable at the
bottom edge — while for touch input the code feeds the horizontal client
coordinate into the same vertical formula. -/
theorem C7_hue_axis_fixed_vertical_mapping (rect : Rect) (st : WheelState) (x y : ℚ) :
    (handleHueMove rect (.mouse x y) st).hsv.h =
      ((jsRound (clamp01 ((y - rect.top) / rect.height) * 360) : ℤ) : ℚ) ∧
    (handleHueMove rect (.touch x y) st).hsv.h =
      ((jsRound (clamp01 ((x - rect.top) / rect.height) * 360) : ℤ) : ℚ) ∧
    (0 : ℚ) ≤ (handleHueMove rect (.mouse x y) st).hsv.h ∧
    (handleHueMove rect (.mouse x y) st).hsv.h ≤ 360 ∧
    (handleHueMove ⟨0, 0, 10, 128⟩ (.mouse 5 128) st).hsv.h = 360 := by
  have hb : ∀ c : ℚ, 0 ≤ jsRound (clamp01 c * 360) ∧ jsRound (clamp01 c * 360) ≤ 360 := by
    intro c
    have h0 : (0 : ℚ) ≤ clamp01 c := le_max_left 0 _
    have h1 : clamp01 c ≤ 1 := max_le (by norm_num) (min_le_left 1 _)
    constructor
    · rw [jsRound, Int.le_floor]
      push_cast
      nlinarith
    · have : jsRound (clamp01 c * 360) < 361 := by
        rw [jsRound, Int.floor_lt]
        push_cast
        nlinarith
      omega
  refine ⟨rfl, rfl, ?_, ?_, ?_⟩
  · show (0 : ℚ) ≤ ((jsRound (clamp01 ((y - rect.top) / rect.height) * 360) : ℤ) : ℚ)
    exact_mod_cast (hb _).1
  · show ((jsRound (clamp01 ((y - rect.top) / rect.height) * 360) : ℤ) : ℚ) ≤ 360
    exact_mod_cast (hb _).2
  · show ((jsRound (clamp01 (((128 : ℚ) - 0) / 128) * 360) : ℤ) : ℚ) = 360
    have hcl : clamp01 (((128 : ℚ) - 0) / 128) * 360 = ((360 : ℕ) : ℚ) := by
      rw [clamp01, min_eq_right (by norm_num), max_eq_right (by norm_num)]
      norm_num
    rw [hcl, jsRound_natCast]
    norm_num

end ColorMaster
